import Mathlib

/-!
Verification of the schema-driven, page-wise PDF extraction pipeline
(`universal_extractor_backend.py`): dynamic schema building, page
segmentation, per-page LLM invocation with failure isolation, and the
orchestrating pipeline that aggregates everything into a result envelope.

The Python code is shallowly embedded: JSON values are an inductive type,
Python dicts used as records become structures, fallible code returns
`Except String`, and the LLM call is an explicit function parameter
(a deterministic stub standing for `structured_llm.invoke`).
-/

/-- A JSON value, the shape of the data flowing through the pipeline:
each extracted item (`item.dict()`), each per-page error record, and the
serialized output are JSON values. -/
inductive Json where
  | null : Json
  | bool : Bool → Json
  | num : Int → Json
  | str : String → Json
  | arr : List Json → Json
  | obj : List (String × Json) → Json
deriving Repr

/-- Escape one character for a JSON string literal. -/
def jsonEscapeChar (c : Char) : String :=
  if c = '"' then "\\\""
  else if c = '\\' then "\\\\"
  else if c = '\n' then "\\n"
  else if c = '\t' then "\\t"
  else if c = '\r' then "\\r"
  else String.singleton c

/-- Escape a string for inclusion in a JSON string literal. -/
def jsonEscape (s : String) : String :=
  String.join (s.data.map jsonEscapeChar)

/-- `indent * " "`: leading whitespace at a given nesting level, two spaces
per level, modelling `json.dumps(..., indent=2)`. -/
def indentPad (lvl : Nat) : String :=
  String.join (List.replicate lvl "  ")

/-- Render a JSON value the way `json.dumps(value, indent=2)` does:
containers spread over lines, two-space indentation, `": "` between key
and value, `","` between elements. -/
def renderJson (lvl : Nat) : Json → String
  | .null => "null"
  | .bool true => "true"
  | .bool false => "false"
  | .num n => toString n
  | .str s => "\"" ++ jsonEscape s ++ "\""
  | .arr [] => "[]"
  | .arr (x :: xs) =>
      "[\n" ++
      String.intercalate ",\n"
        (((x :: xs).attach).map
          (fun y => indentPad (lvl + 1) ++ renderJson (lvl + 1) y.1)) ++
      "\n" ++ indentPad lvl ++ "]"
  | .obj [] => "\x7b\x7d"
  | .obj (f :: fs) =>
      "\x7b\n" ++
      String.intercalate ",\n"
        (((f :: fs).attach).map
          (fun y => match y with
            | ⟨(k, v), _⟩ =>
              indentPad (lvl + 1) ++ "\"" ++ jsonEscape k ++ "\": " ++
                renderJson (lvl + 1) v)) ++
      "\n" ++ indentPad lvl ++ "\x7d"
termination_by j => sizeOf j
decreasing_by
all_goals simp_wf
· have h := List.sizeOf_lt_of_mem y.2
  simp at h ⊢
  omega
· rename_i hmem
  have h := List.sizeOf_lt_of_mem hmem
  simp at h ⊢
  omega

/-- `json.dumps(j, indent=2)`. -/
def jsonDumps (j : Json) : String := renderJson 0 j

/-- The four Python types the schema builder can target:
`type_map = {"str": str, "int": int, "float": float, "bool": bool}`. -/
inductive PyType where
  | str : PyType
  | int : PyType
  | float : PyType
  | bool : PyType
deriving DecidableEq, Repr

/-- `type_map.get(s, str)`: resolve a declared type name, any unrecognized
name falling back to `str`. -/
def type_map (s : String) : PyType :=
  if s = "str" then .str
  else if s = "int" then .int
  else if s = "float" then .float
  else if s = "bool" then .bool
  else .str

/-- `type_map.get(f.get("type", "str"), str)`: a missing `type` key reads
as `"str"`. -/
def resolveType (t : Option String) : PyType :=
  type_map (t.getD "str")

/-- The annotation type of one model field: `dtype` itself when required,
`Optional[dtype]` otherwise. -/
inductive FinalType where
  | plain : PyType → FinalType
  | optional : PyType → FinalType
deriving DecidableEq, Repr

/-- The default value passed to `Field(...)`: Python `...` (Ellipsis,
meaning mandatory with no default) when required, `None` otherwise. -/
inductive DefaultVal where
  | ellipsis : DefaultVal
  | null : DefaultVal
deriving DecidableEq, Repr

/-- One user-supplied field descriptor dict. `name = none` models a dict
with no `"name"` key (reading it raises `KeyError`); the other keys are
read with `.get` and a default, so they are total. -/
structure FieldDesc where
  name : Option String
  type : Option String
  required : Bool
  description : Option String
  examples : List String
deriving DecidableEq, Repr

/-- What `build_pydantic_model` records for one field: the annotation
`(final_type, Field(default_value, **field_args))`. -/
structure FieldInfo where
  finalType : FinalType
  default : DefaultVal
  description : Option String
  examples : List String
deriving DecidableEq, Repr

/-- The dynamically built model: its `annotations` dict, an
insertion-ordered map from field name to field info. -/
abbrev Schema := List (String × FieldInfo)

/-- Python dict assignment `d[k] = v`: replace the value in place if the
key exists (keeping its original position), else append at the end. -/
def dictInsert (m : List (String × FieldInfo)) (k : String) (v : FieldInfo) :
    List (String × FieldInfo) :=
  if m.any (fun p => p.1 = k) then
    m.map (fun p => if p.1 = k then (k, v) else p)
  else
    m ++ [(k, v)]

/-- Python dict read `d[k]`: the value at the first (unique, since
`dictInsert` never duplicates a key) entry with key `k`. -/
def dictLookup (m : List (String × FieldInfo)) (k : String) : Option FieldInfo :=
  match m with
  | [] => none
  | p :: ps => if p.1 = k then some p.2 else dictLookup ps k

/-- The annotation one loop iteration of `build_pydantic_model` computes
for a descriptor: `dtype = type_map.get(f.get("type", "str"), str)`,
`default_value = ... if required else None`,
`final_type = dtype if required else Optional[dtype]`, and the truthy
metadata collected into `field_args`. -/
def descInfo (f : FieldDesc) : FieldInfo :=
  { finalType := if f.required then .plain (resolveType f.type)
                 else .optional (resolveType f.type),
    default := if f.required then .ellipsis else .null,
    description := match f.description with
      | some d => if d = "" then none else some d
      | none => none,
    examples := if f.examples = [] then [] else f.examples }

/-- The body of the `for f in fields` loop in `build_pydantic_model`:
compute the annotation and assign `annotations[f["name"]] = ...` — which
raises `KeyError` when the descriptor dict has no `"name"` key. -/
def buildStep (annotations : Schema) (f : FieldDesc) : Except String Schema :=
  match f.name with
  | none => .error "KeyError: name"
  | some nm => .ok (dictInsert annotations nm (descInfo f))

/-- `build_pydantic_model(fields)`: fold the loop body over the field
descriptors starting from an empty annotations dict. The produced
`Schema` stands for both `DynamicModel` and its `BatchWrapper`
(`items: List[DynamicModel]`), which is determined by it. -/
def build_pydantic_model (fields : List FieldDesc) : Except String Schema :=
  fields.foldlM buildStep []

/-- Serialize a `FinalType` for the schema's JSON rendering. -/
def finalTypeJson : FinalType → Json
  | .plain .str => .str "string"
  | .plain .int => .str "integer"
  | .plain .float => .str "number"
  | .plain .bool => .str "boolean"
  | .optional .str => .arr [.str "string", .null]
  | .optional .int => .arr [.str "integer", .null]
  | .optional .float => .arr [.str "number", .null]
  | .optional .bool => .arr [.str "boolean", .null]

/-- The serialized shape of the batch-wrapper model
(`BatchWrapper.schema()` / `schema_json`): field names with their types,
defaults and metadata, wrapped as the `items` collection. -/
def schemaToJson (sch : Schema) : Json :=
  .obj [("items",
    .obj (sch.map (fun p =>
      (p.1, .obj ([("type", finalTypeJson p.2.finalType),
                   ("required", .bool (p.2.default = .ellipsis))] ++
        (match p.2.description with
         | some d => [("description", .str d)]
         | none => []) ++
        (match p.2.examples with
         | [] => []
         | exs => [("examples", .arr (exs.map Json.str))]))))))]

/-- `BatchWrapper.schema_json(indent=2)`, as interpolated into the system
prompt. -/
def schemaJsonStr (sch : Schema) : String :=
  jsonDumps (schemaToJson sch)

/-- One PDF page as seen by the segmenter. `layout = some t` means
`page.extract_text(extraction_mode="layout")` returns `t`;
`layout = none` means that call raises `TypeError` (the mode is
unsupported) and the code falls back to `page.extract_text() or ""`,
modelled by `plain`. -/
structure Page where
  layout : Option String
  plain : String
deriving DecidableEq, Repr, Inhabited

/-- The text one loop iteration appends for a page: the layout-mode text
when available, else the plain-mode fallback (`page_text or ""` keeps it
a string). -/
def extractPage (p : Page) : String :=
  match p.layout with
  | some t => t
  | none => p.plain

/-- The `num_pages` argument: the sentinel string `"ALL"` or a number. -/
inductive NumPages where
  | all : NumPages
  | num : Int → NumPages
deriving DecidableEq, Repr

/-- The message the page-range raise carries:
`ValueError("No text could be extracted from the PDF.")`. -/
def noTextError : String := "No text could be extracted from the PDF."

/-- `start_idx = max(0, start_page - 1)`. -/
def startIdx (start_page : Int) : Nat := (max 0 (start_page - 1)).toNat

/-- `end_idx = total_pages if num_pages == "ALL" else
min(start_idx + int(num_pages), total_pages)`. -/
def endIdx (total_pages : Nat) (num_pages : NumPages) (start_page : Int) : Nat :=
  match num_pages with
  | .all => total_pages
  | .num n => (min ((startIdx start_page : Int) + n) (total_pages : Int)).toNat

/-- `extract_text_from_pdf(pdf_path, num_pages, start_page)`: walk
`range(start_idx, end_idx)` collecting each page's text, then raise
`ValueError` if the collected list is empty. -/
def extract_text_from_pdf (doc : List Page) (num_pages : NumPages)
    (start_page : Int) : Except String (List String) :=
  let total_pages := doc.length
  let a := startIdx start_page
  let b := endIdx total_pages num_pages start_page
  let page_texts := (List.range' a (b - a)).map (fun pg => extractPage (doc.getD pg default))
  if page_texts = [] then .error noTextError else .ok page_texts

/-- The resolved page slice `reader.pages[start_idx:end_idx]`, the list of
pages the loop in `extract_text_from_pdf` visits, in ascending index
order. -/
def resolvedSlice (doc : List Page) (num_pages : NumPages) (start_page : Int) :
    List Page :=
  (doc.take (endIdx doc.length num_pages start_page)).drop (startIdx start_page)

/-- The system prompt built for every page: fixed rule text around the
serialized schema, plus `"\nAdditional context: " + description` when
`description` is truthy (non-empty). -/
def systemPrompt (schema_str : String) (description : String) : String :=
  let base := "\nYou are an intelligent data extraction system. Extract structured data from the given PDF text based on the schema below.\n\n### SCHEMA ###\n"
    ++ schema_str
    ++ "\n\n### RULES ###\n1. Treat each record/item as a separate entity.\n2. Do NOT mix data between items.\n3. If a field is missing, leave it empty or null.\n4. Return results strictly in JSON format.\n"
  if description = "" then base else base ++ "\nAdditional context: " ++ description

/-- The user prompt for one page. -/
def userPrompt (page_text : String) : String :=
  "Extract data from this page:\n\n" ++ page_text ++ "\n"

/-- The two-message request `structured_llm.invoke` receives for one
page: role paired with content. -/
def mkMessages (schema_str description page_text : String) :
    List (String × String) :=
  [("system", systemPrompt schema_str description),
   ("user", userPrompt page_text)]

/-- The model call, abstracted: given the request messages it either
returns the batch's items (each `item.dict()` as a JSON object) or
raises, with the exception's string form. One pipeline run holds one
such function (one `structured_llm`). -/
abbrev LlmStub := List (String × String) → Except String (List Json)

/-- The fallback record appended when a page's model call raises:
`{"page": i + 1, "raw_text": page_text, "error": str(e)}`. -/
def errorRecord (page : Nat) (raw_text error : String) : Json :=
  .obj [("page", .num page), ("raw_text", .str raw_text), ("error", .str error)]

/-- What one iteration of the page loop contributes to `extracted_data`,
for the zero-based index / page-text pair `p`: the items on success
(`extracted_data.extend(page_data)`), or the single error record on
failure (`extracted_data.append(...)`). -/
def unitOutcome (llm : LlmStub) (schema_str description : String)
    (p : Nat × String) : List Json :=
  match llm (mkMessages schema_str description p.2) with
  | .ok items => items
  | .error e => [errorRecord (p.1 + 1) p.2 e]

/-- `run_llm_extraction(...)`: fold `for i, page_text in
enumerate(page_texts)` over the accumulating `extracted_data`, starting
empty. -/
def run_llm_extraction (llm : LlmStub) (schema_str description : String)
    (page_texts : List String) : List Json :=
  page_texts.enum.foldl (fun acc p => acc ++ unitOutcome llm schema_str description p) []

/-- The dict `process_extraction` returns. The success dict carries no
`"error"` key, modelled by `error = none`. -/
structure Envelope where
  success : Bool
  error : Option String
  schema : Option Schema
  json_output : String
  pages_processed : Nat
  total_items : Nat
deriving DecidableEq, Repr

/-- The except-branch dict of `process_extraction`:
`{"success": False, "error": str(e), "schema": None,
"json_output": json.dumps({"error": str(e)}, indent=2),
"pages_processed": 0, "total_items": 0}`. -/
def failureEnvelope (e : String) : Envelope :=
  { success := false, error := some e, schema := none,
    json_output := jsonDumps (.obj [("error", .str e)]),
    pages_processed := 0, total_items := 0 }

/-- `process_extraction(...)`: build the model, extract the page texts,
run the per-page extraction, serialize; any exception raised along the
way falls into the catch-all and yields the failure dict. The
`api_key`/`model_choice` pair is abstracted into the `llm` stub. -/
def process_extraction (llm : LlmStub) (doc : List Page)
    (fields : List FieldDesc) (description : String)
    (num_pages : NumPages) (start_page : Int) : Envelope :=
  match build_pydantic_model fields with
  | .error e => failureEnvelope e
  | .ok schema =>
    match extract_text_from_pdf doc num_pages start_page with
    | .error e => failureEnvelope e
    | .ok page_texts =>
      let results := run_llm_extraction llm (schemaJsonStr schema) description page_texts
      { success := true, error := none, schema := some schema,
        json_output := jsonDumps (.arr results),
        pages_processed := page_texts.length,
        total_items := results.length }

/-! ### Helper lemmas -/

theorem foldl_append_flatMap {α β : Type} (f : α → List β) :
    ∀ (l : List α) (acc : List β),
      l.foldl (fun a x => a ++ f x) acc = acc ++ l.flatMap f := by
  intro l
  induction l with
  | nil => intro acc; simp
  | cons x xs ih => intro acc; simp [ih]

theorem run_llm_eq_flatMap (llm : LlmStub) (s d : String) (texts : List String) :
    run_llm_extraction llm s d texts = texts.enum.flatMap (unitOutcome llm s d) := by
  unfold run_llm_extraction
  rw [foldl_append_flatMap]
  simp

theorem enum_middle {α : Type} (A B : List α) (t : α) :
    (A ++ t :: B).enum = A.enum ++ (A.length, t) :: List.enumFrom (A.length + 1) B := by
  show List.enumFrom 0 (A ++ t :: B) = _
  rw [List.enumFrom_append]
  simp [List.enum]

/-! ### C7, C9, C10, C2 -/

/-- Claim C7: type-resolution fallback. Every declared type string resolves
to one of the four supported types; the four recognized names map to their
types; any unrecognized or missing `type` value silently resolves to `str`,
never raising; and `build_pydantic_model`'s per-descriptor annotation is
built from exactly this resolution. -/
theorem resolve_type_fallback :
    (type_map "str" = .str ∧ type_map "int" = .int ∧
     type_map "float" = .float ∧ type_map "bool" = .bool)
    ∧ (∀ s : String, s ≠ "str" → s ≠ "int" → s ≠ "float" → s ≠ "bool" →
        type_map s = .str)
    ∧ resolveType none = .str
    ∧ (∀ t : Option String,
        resolveType t = .str ∨ resolveType t = .int ∨
        resolveType t = .float ∨ resolveType t = .bool)
    ∧ (∀ f : FieldDesc,
        (descInfo f).finalType = .plain (resolveType f.type) ∨
        (descInfo f).finalType = .optional (resolveType f.type)) := by
  refine ⟨⟨rfl, rfl, rfl, rfl⟩, ?_, rfl, ?_, ?_⟩
  · intro s h1 h2 h3 h4
    simp [type_map, h1, h2, h3, h4]
  · intro t
    unfold resolveType type_map
    split_ifs <;> tauto
  · intro f
    unfold descInfo
    by_cases h : f.required <;> simp [h]

/-- Witness for C7: the unrecognized type name `"banana"` resolves to
`str`. -/
theorem resolve_type_fallback_witness : type_map "banana" = .str :=
  resolve_type_fallback.2.1 "banana" (by decide) (by decide) (by decide)
    (by decide)

/-- Claim C9: determinism. Two runs of `process_extraction` on identical
inputs (same document, fields, configuration, paging, and the same
deterministic model stub) produce byte-identical `json_output`. -/
theorem process_extraction_deterministic (llm llm' : LlmStub)
    (doc doc' : List Page) (fields fields' : List FieldDesc)
    (d d' : String) (np np' : NumPages) (sp sp' : Int)
    (h1 : llm = llm') (h2 : doc = doc') (h3 : fields = fields')
    (h4 : d = d') (h5 : np = np') (h6 : sp = sp') :
    (process_extraction llm doc fields d np sp).json_output =
      (process_extraction llm' doc' fields' d' np' sp').json_output := by
  subst h1; subst h2; subst h3; subst h4; subst h5; subst h6; rfl

/-- Witness for C9 at a concrete input. -/
theorem process_extraction_deterministic_witness :
    (process_extraction (fun _ => .ok []) [⟨some "text", ""⟩]
        [⟨some "a", some "str", true, none, []⟩] "" .all 1).json_output =
      (process_extraction (fun _ => .ok []) [⟨some "text", ""⟩]
        [⟨some "a", some "str", true, none, []⟩] "" .all 1).json_output :=
  process_extraction_deterministic _ _ _ _ _ _ _ _ _ _ _ _
    rfl rfl rfl rfl rfl rfl

/-- Claim C10: implicit totality. `process_extraction` never propagates an
exception: for every input it returns an envelope with all keys populated,
either the success shape (`success=true`, no error, a schema) or the
failure shape (`success=false`, an error message, null schema, zero
counts); in particular a field-descriptor dict missing its `"name"` key
(which makes schema building itself raise `KeyError`) still yields the
well-formed failure envelope. -/
theorem process_extraction_total_envelope (llm : LlmStub) (doc : List Page)
    (fields : List FieldDesc) (d : String) (np : NumPages) (sp : Int) :
    (((process_extraction llm doc fields d np sp).success = true ∧
      (process_extraction llm doc fields d np sp).error = none ∧
      (process_extraction llm doc fields d np sp).schema.isSome = true) ∨
     ((process_extraction llm doc fields d np sp).success = false ∧
      (process_extraction llm doc fields d np sp).error.isSome = true ∧
      (process_extraction llm doc fields d np sp).schema = none ∧
      (process_extraction llm doc fields d np sp).pages_processed = 0 ∧
      (process_extraction llm doc fields d np sp).total_items = 0))
    ∧ ∀ (rest : List FieldDesc) (llm2 : LlmStub) (doc2 : List Page)
        (d2 : String) (np2 : NumPages) (sp2 : Int),
        process_extraction llm2 doc2
            (⟨none, none, false, none, []⟩ :: rest) d2 np2 sp2 =
          failureEnvelope "KeyError: name" := by
  constructor
  · cases hb : build_pydantic_model fields with
    | error e => right; simp [process_extraction, hb, failureEnvelope]
    | ok sch =>
      cases hx : extract_text_from_pdf doc np sp with
      | error e => right; simp [process_extraction, hb, hx, failureEnvelope]
      | ok ts => left; simp [process_extraction, hb, hx]
  · intro rest llm2 doc2 d2 np2 sp2
    rfl

/-- Claim C2: fatal abort. If an error is raised before segmentation
completes — the schema build fails, or the page-text extraction fails —
`process_extraction` returns the failure envelope for that error:
`success=false`, `schema=null`, `pages_processed=0`, `total_items=0`,
`error` the message, and `json_output` the JSON serialization of
`{"error": "<message>"}`; the result is the same for every model stub,
so no model call is made. -/
theorem process_extraction_fatal_abort (doc : List Page)
    (fields : List FieldDesc) (d : String) (np : NumPages) (sp : Int)
    (e : String)
    (h : build_pydantic_model fields = .error e ∨
         (∃ sch, build_pydantic_model fields = .ok sch ∧
           extract_text_from_pdf doc np sp = .error e)) :
    ∀ llm : LlmStub,
      process_extraction llm doc fields d np sp = failureEnvelope e := by
  intro llm
  rcases h with hb | ⟨sch, hb, hx⟩
  · simp [process_extraction, hb]
  · simp [process_extraction, hb, hx]

/-- Witness for C2: an empty document (empty resolved page range) aborts
with the failure envelope for the page-range error, with a concrete model
stub that is never consulted. -/
theorem process_extraction_fatal_abort_witness :
    process_extraction (fun _ => .ok []) [] [] "" .all 1 =
      failureEnvelope noTextError :=
  process_extraction_fatal_abort [] [] "" .all 1 noTextError
    (Or.inr ⟨[], rfl, rfl⟩) (fun _ => .ok [])

/-! ### C3, C4, C5 counterexamples -/

/-- Counterexample to claim C3 as stated: a one-page document whose page
yields no extractable text does NOT make `extract_text_from_pdf` raise —
the page becomes a single empty-string unit — although the claim counts
"the whole document yields no extractable text" among the error cases. -/
theorem extract_text_ok_on_textless_page :
    extract_text_from_pdf [⟨some "", ""⟩] .all 1 = .ok [""] ∧
    extract_text_from_pdf [⟨some "", ""⟩] .all 1 ≠ .error noTextError :=
  ⟨rfl, fun h => Except.noConfusion h⟩

/-- Counterexample to claim C4 as stated: on a document with `P = 0` pages
and numeric count `c = 1`, the claim says `segment(doc, 1, 1)` returns
exactly `min(1, 0) = 0` units, but `extract_text_from_pdf` raises
`ValueError` instead of returning an empty sequence. -/
theorem extract_text_raises_on_empty_doc :
    extract_text_from_pdf [] (.num 1) 1 = .error noTextError := rfl

/-- Counterexample to claim C5 as stated: two descriptors sharing the name
`"a"` do NOT make `build_pydantic_model` fail — it succeeds, the later
descriptor silently overwriting the earlier one's definition. -/
theorem build_model_ok_on_duplicate_names :
    build_pydantic_model
        [⟨some "a", some "str", true, none, []⟩,
         ⟨some "a", some "int", false, none, []⟩] =
      .ok [("a", { finalType := .optional .int, default := .null,
                   description := none, examples := [] })] := rfl

/-! ### C1, C8 -/

/-- Claim C1: failure isolation. If the model call for the unit `t` (at
zero-based position `A.length`) raises, `run_llm_extraction` does not
propagate the exception: the output is the prefix units' contributions,
then exactly one error record carrying the unit's 1-based index, its raw
source text and the error string, then the contributions of every
remaining unit (still processed, at their original indices); and whenever
the pipeline reaches the extraction stage at all, `process_extraction`
completes with `success=true`. -/
theorem run_llm_extraction_failure_isolation (llm : LlmStub) (s d : String)
    (A B : List String) (t e : String)
    (hfail : llm (mkMessages s d t) = .error e) :
    run_llm_extraction llm s d (A ++ t :: B) =
      run_llm_extraction llm s d A ++
        errorRecord (A.length + 1) t e ::
          (List.enumFrom (A.length + 1) B).flatMap (unitOutcome llm s d)
    ∧ ∀ (fields : List FieldDesc) (doc : List Page) (np : NumPages) (sp : Int)
        (sch : Schema) (texts : List String),
        build_pydantic_model fields = .ok sch →
        extract_text_from_pdf doc np sp = .ok texts →
        (process_extraction llm doc fields d np sp).success = true := by
  constructor
  · rw [run_llm_eq_flatMap, run_llm_eq_flatMap, enum_middle,
      List.flatMap_append, List.flatMap_cons]
    have hu : unitOutcome llm s d (A.length, t) =
        [errorRecord (A.length + 1) t e] := by
      simp [unitOutcome, hfail]
    rw [hu]
    simp
  · intro fields doc np sp sch texts hb hx
    simp [process_extraction, hb, hx]

/-- Witness for C1: three units where the model stub raises on the middle
one; the output is unit 1's contribution, one error record for unit 2
(page index 2, raw text, error string), then unit 3's contribution. -/
theorem run_llm_extraction_failure_isolation_witness :
    (run_llm_extraction (fun _ => .error "boom") "S" "" (["a"] ++ "b" :: ["c"]) =
      run_llm_extraction (fun _ => .error "boom") "S" "" ["a"] ++
        errorRecord 2 "b" "boom" ::
          (List.enumFrom 2 ["c"]).flatMap
            (unitOutcome (fun _ => .error "boom") "S" ""))
    ∧ ∀ (fields : List FieldDesc) (doc : List Page) (np : NumPages) (sp : Int)
        (sch : Schema) (texts : List String),
        build_pydantic_model fields = .ok sch →
        extract_text_from_pdf doc np sp = .ok texts →
        (process_extraction (fun _ => .error "boom") doc fields "" np sp).success = true :=
  run_llm_extraction_failure_isolation (fun _ => .error "boom") "S" ""
    ["a"] ["c"] "b" "boom" rfl

/-- Claim C8: ordering. The aggregated output of `run_llm_extraction` is
the concatenation, in unit index order, of each unit's contribution (its
records in their internal order, or its single error record): the fold is
strictly sequential, and splitting the unit sequence anywhere splits the
output accordingly, with the suffix processed at its original indices. -/
theorem run_llm_extraction_ordering (llm : LlmStub) (s d : String)
    (texts : List String) :
    run_llm_extraction llm s d texts =
      texts.enum.flatMap (unitOutcome llm s d)
    ∧ ∀ A B : List String, texts = A ++ B →
        run_llm_extraction llm s d texts =
          run_llm_extraction llm s d A ++
            (List.enumFrom A.length B).flatMap (unitOutcome llm s d) := by
  constructor
  · exact run_llm_eq_flatMap llm s d texts
  · intro A B hAB
    subst hAB
    rw [run_llm_eq_flatMap, run_llm_eq_flatMap]
    show (List.enumFrom 0 (A ++ B)).flatMap _ = _
    rw [List.enumFrom_append, List.flatMap_append]
    simp [List.enum]

/-- Witness for C8 at a concrete two-unit input split after the first
unit. -/
theorem run_llm_extraction_ordering_witness :
    run_llm_extraction (fun _ => .ok []) "S" "" ["x", "y"] =
      run_llm_extraction (fun _ => .ok []) "S" "" ["x"] ++
        (List.enumFrom 1 ["y"]).flatMap (unitOutcome (fun _ => .ok []) "S" "") :=
  (run_llm_extraction_ordering (fun _ => .ok []) "S" "" ["x", "y"]).2
    ["x"] ["y"] rfl

/-! ### C3, C4 amended -/

theorem endIdx_le (total : Nat) (np : NumPages) (sp : Int) :
    endIdx total np sp ≤ total := by
  cases np with
  | all => simp [endIdx]
  | num n => simp only [endIdx]; omega

theorem range'_map_getD (l : List Page) (a b : Nat) (hb : b ≤ l.length) :
    (List.range' a (b - a)).map (fun pg => l.getD pg default) =
      (l.take b).drop a := by
  apply List.ext_getElem
  · simp
    omega
  · intro i h1 h2
    have hlen : i < b - a := by simpa using h1
    have hai : a + i < l.length := by omega
    simp only [List.getElem_map, List.getElem_range', List.getElem_drop,
      List.getElem_take]
    rw [List.getD_eq_getElem l default (by omega : a + 1 * i < l.length)]
    congr 1
    omega

theorem extract_eq_slice (doc : List Page) (np : NumPages) (sp : Int) :
    extract_text_from_pdf doc np sp =
      if resolvedSlice doc np sp = [] then .error noTextError
      else .ok ((resolvedSlice doc np sp).map extractPage) := by
  have hb := endIdx_le doc.length np sp
  have hmap := range'_map_getD doc (startIdx sp) (endIdx doc.length np sp) hb
  simp only [extract_text_from_pdf, resolvedSlice]
  rw [show (fun pg => extractPage (doc.getD pg default)) =
      extractPage ∘ (fun pg => doc.getD pg default) from rfl]
  rw [← List.map_map, hmap]
  simp only [List.map_eq_nil_iff]

/-- Claim C3 (amended): `extract_text_from_pdf` raises its error if and
only if the resolved page index range is empty (start page beyond the
document, or a numeric count making the end boundary not exceed the
start); pages inside a nonempty range that yield no extractable text are
returned as empty-string units and do not trigger the error; on success
the returned units are exactly the resolved pages' texts. (The original
claim also counted "the whole document yields no extractable text" as an
error case; the code instead returns empty-string units there.) -/
theorem extract_text_error_iff_empty_range (doc : List Page)
    (np : NumPages) (sp : Int) :
    (extract_text_from_pdf doc np sp = .error noTextError ↔
      resolvedSlice doc np sp = [])
    ∧ (∀ texts, extract_text_from_pdf doc np sp = .ok texts →
        texts = (resolvedSlice doc np sp).map extractPage) := by
  have h := extract_eq_slice doc np sp
  by_cases hs : resolvedSlice doc np sp = []
  · refine ⟨by simp [h, hs], ?_⟩
    intro texts ht
    rw [h] at ht
    simp [hs] at ht
  · refine ⟨by simp [h, hs], ?_⟩
    intro texts ht
    rw [h] at ht
    simp only [hs, if_false] at ht
    exact (Except.ok.injEq _ _ ▸ ht).symm

/-- Witness for C3 (amended): a one-page document at `start_page = 1`,
count `"ALL"`, returns that page's text. -/
theorem extract_text_error_iff_empty_range_witness :
    ["hello"] = (resolvedSlice [⟨some "hello", ""⟩] .all 1).map extractPage :=
  (extract_text_error_iff_empty_range [⟨some "hello", ""⟩] .all 1).2
    ["hello"] rfl

theorem startIdx_eq (s : Int) (hs : 1 ≤ s) : startIdx s = (s - 1).toNat := by
  unfold startIdx
  omega

theorem endIdx_num_eq (L : Nat) (c : Nat) (s : Int) (hs : 1 ≤ s) :
    endIdx L (.num (c : Int)) s = min ((s - 1).toNat + c) L := by
  simp only [endIdx, startIdx]
  omega

/-- Claim C4 (amended): segmentation bounds. For `start_page = s ≥ 1`,
`extract_text_from_pdf` resolves the start to the zero-based offset
`s - 1` (i.e. `max(0, s-1)`), the end to `min(start + c, P)` for numeric
count `c` and to `P` for the sentinel `"ALL"`, and — provided the
resolved range is nonempty — returns exactly the pages of that range, in
ascending index order; in particular `segment(doc, 1, c)` returns exactly
`min(c, P)` units starting at page 1 whenever `min(c, P) ≥ 1`. (The
original claim had no nonemptiness proviso, but on an empty resolved
range — e.g. an empty document — the code raises instead of returning
zero units.) -/
theorem extract_text_segmentation_bounds (doc : List Page) (c : Nat)
    (s : Int) (hs : 1 ≤ s) :
    resolvedSlice doc (.num (c : Int)) s =
        (doc.take (min ((s - 1).toNat + c) doc.length)).drop (s - 1).toNat
    ∧ resolvedSlice doc .all s = doc.drop (s - 1).toNat
    ∧ (resolvedSlice doc (.num (c : Int)) s ≠ [] →
        extract_text_from_pdf doc (.num (c : Int)) s =
          .ok ((resolvedSlice doc (.num (c : Int)) s).map extractPage))
    ∧ (1 ≤ min c doc.length →
        extract_text_from_pdf doc (.num (c : Int)) 1 =
          .ok ((doc.take (min c doc.length)).map extractPage)
        ∧ ((doc.take (min c doc.length)).map extractPage).length =
            min c doc.length) := by
  refine ⟨?_, ?_, ?_, ?_⟩
  · unfold resolvedSlice
    rw [startIdx_eq s hs, endIdx_num_eq doc.length c s hs]
  · unfold resolvedSlice
    rw [startIdx_eq s hs]
    simp [endIdx]
  · intro hne
    simp [extract_eq_slice, hne]
  · intro hmin
    have hslice : resolvedSlice doc (.num (c : Int)) 1 =
        doc.take (min c doc.length) := by
      unfold resolvedSlice
      rw [startIdx_eq 1 (by norm_num), endIdx_num_eq doc.length c 1 (by norm_num)]
      simp
    have hlen : (doc.take (min c doc.length)).length = min c doc.length := by
      rw [List.length_take]
      omega
    have hne : resolvedSlice doc (.num (c : Int)) 1 ≠ [] := by
      rw [hslice]
      apply List.ne_nil_of_length_pos
      omega
    refine ⟨?_, ?_⟩
    · rw [extract_eq_slice, if_neg hne, hslice]
    · rw [List.length_map, hlen]

/-- Witness for C4 (amended) on a two-page document with `start_page = 1`
and numeric count `5`: the run returns `min(5, 2) = 2` units. -/
theorem extract_text_segmentation_bounds_witness :
    extract_text_from_pdf [⟨some "a", ""⟩, ⟨some "b", ""⟩] (.num 5) 1 =
      .ok ((([⟨some "a", ""⟩, ⟨some "b", ""⟩] : List Page).take
        (min 5 2)).map extractPage)
    ∧ ((([⟨some "a", ""⟩, ⟨some "b", ""⟩] : List Page).take
        (min 5 2)).map extractPage).length = min 5 2 :=
  (extract_text_segmentation_bounds [⟨some "a", ""⟩, ⟨some "b", ""⟩] 5 1
    (by decide)).2.2.2 (by decide)

/-! ### C5, C6 -/

theorem dictLookup_none_iff_any (m : List (String × FieldInfo)) (k : String) :
    dictLookup m k = none ↔ m.any (fun p => p.1 = k) = false := by
  induction m with
  | nil => simp [dictLookup]
  | cons p ps ih => by_cases h : p.1 = k <;> simp [dictLookup, h, ih]

theorem dictLookup_append (m₁ m₂ : List (String × FieldInfo)) (nm : String) :
    dictLookup (m₁ ++ m₂) nm =
      match dictLookup m₁ nm with
      | some v => some v
      | none => dictLookup m₂ nm := by
  induction m₁ with
  | nil => simp [dictLookup]
  | cons p ps ih => by_cases h : p.1 = nm <;> simp [dictLookup, h, ih]

theorem dictLookup_mapReplace (m : List (String × FieldInfo)) (k : String)
    (v : FieldInfo) (nm : String) :
    dictLookup (m.map (fun p => if p.1 = k then (k, v) else p)) nm =
      if nm = k then (if m.any (fun p => p.1 = k) then some v else none)
      else dictLookup m nm := by
  induction m with
  | nil => by_cases h : nm = k <;> simp [dictLookup, h]
  | cons p ps ih =>
    by_cases hp : p.1 = k
    · by_cases hnm : nm = k
      · subst hnm; simp [dictLookup, hp, ih]
      · simp [dictLookup, hp, hnm, ih, Ne.symm hnm]
    · by_cases hnm2 : p.1 = nm
      · have hnk : ¬nm = k := fun hh => hp (hnm2.trans hh)
        simp [dictLookup, hp, hnm2, hnk]
      · have hd : (decide (p.1 = k)) = false := by simp [hp]
        simp only [List.map_cons, List.any_cons, hd, Bool.false_or]
        rw [if_neg hp]
        simp [dictLookup, hnm2, ih]

theorem dictLookup_dictInsert (m : List (String × FieldInfo)) (k : String)
    (v : FieldInfo) (nm : String) :
    dictLookup (dictInsert m k v) nm =
      if nm = k then some v else dictLookup m nm := by
  unfold dictInsert
  by_cases hany : m.any (fun p => p.1 = k)
  · simp only [hany, if_true]
    rw [dictLookup_mapReplace]
    simp [hany]
  · have hfalse : m.any (fun p => p.1 = k) = false := by
      cases hb : m.any (fun p => p.1 = k) with
      | false => rfl
      | true => exact absurd hb hany
    simp only [hfalse, Bool.false_eq_true, if_false]
    rw [dictLookup_append]
    by_cases hnm : nm = k
    · subst hnm
      rw [(dictLookup_none_iff_any m nm).mpr hfalse]
      simp [dictLookup]
    · cases hl : dictLookup m nm <;>
        simp [dictLookup, hl, hnm, Ne.symm hnm]

theorem dictInsert_fresh (m : List (String × FieldInfo)) (k : String)
    (v : FieldInfo) (h : dictLookup m k = none) :
    dictInsert m k v = m ++ [(k, v)] := by
  unfold dictInsert
  rw [(dictLookup_none_iff_any m k).mp h]
  simp

theorem build_foldl_lastWins :
    ∀ (fields : List FieldDesc) (ann : Schema),
      (∀ f ∈ fields, f.name ≠ none) →
      ∃ sch, List.foldlM buildStep ann fields = .ok sch ∧
        ∀ nm, dictLookup sch nm =
          match fields.reverse.find? (fun f => f.name = some nm) with
          | some g => some (descInfo g)
          | none => dictLookup ann nm := by
  intro fields
  induction fields with
  | nil =>
    intro ann _
    exact ⟨ann, rfl, fun nm => by simp [List.find?]⟩
  | cons f fs ih =>
    intro ann h
    have hf : f.name ≠ none := h f (List.mem_cons_self f fs)
    obtain ⟨k, hk⟩ : ∃ k, f.name = some k := by
      cases hfn : f.name with
      | none => exact absurd hfn hf
      | some k => exact ⟨k, rfl⟩
    have step : buildStep ann f = .ok (dictInsert ann k (descInfo f)) := by
      simp [buildStep, hk]
    obtain ⟨sch, hsch, hlook⟩ :=
      ih (dictInsert ann k (descInfo f))
        (fun g hg => h g (List.mem_cons_of_mem f hg))
    refine ⟨sch, ?_, ?_⟩
    · simpa [List.foldlM, step] using hsch
    · intro nm
      rw [hlook nm, List.reverse_cons, List.find?_append]
      cases hfind : fs.reverse.find? (fun g => g.name = some nm) with
      | some g => simp [Option.or]
      | none =>
        rw [dictLookup_dictInsert]
        by_cases hnmk : nm = k
        · subst hnmk
          simp [List.find?, hk, Option.or]
        · simp [List.find?, hk, hnmk, Option.or, Ne.symm hnmk]

/-- Claim C5 (amended): duplicate field names do NOT make
`build_pydantic_model` fail. Whenever every descriptor carries a `name`
key the build succeeds, and a name shared by several descriptors is
silently resolved by overwriting: the model's entry for that name is the
LAST descriptor with that name (the only failure mode of schema building
is a descriptor missing its `name` key). -/
theorem build_model_duplicate_last_wins (fields : List FieldDesc)
    (h : ∀ f ∈ fields, f.name ≠ none) :
    ∃ sch, build_pydantic_model fields = .ok sch ∧
      ∀ nm, dictLookup sch nm =
        match fields.reverse.find? (fun f => f.name = some nm) with
        | some g => some (descInfo g)
        | none => none := by
  obtain ⟨sch, h1, h2⟩ := build_foldl_lastWins fields [] h
  refine ⟨sch, h1, fun nm => ?_⟩
  rw [h2 nm]
  cases fields.reverse.find? (fun f => f.name = some nm) <;> simp [dictLookup]

/-- Witness for C5 (amended): the two descriptors sharing the name `"a"`
build successfully, and looking up `"a"` returns the info of the last
one. -/
theorem build_model_duplicate_last_wins_witness :
    ∃ sch, build_pydantic_model
        [⟨some "a", some "str", true, none, []⟩,
         ⟨some "a", some "int", false, none, []⟩] = .ok sch ∧
      ∀ nm, dictLookup sch nm =
        match ([(⟨some "a", some "str", true, none, []⟩ : FieldDesc),
                ⟨some "a", some "int", false, none, []⟩].reverse.find?
            (fun f => f.name = some nm)) with
        | some g => some (descInfo g)
        | none => none :=
  build_model_duplicate_last_wins _ (by decide)

theorem build_nodup_aux :
    ∀ (fields : List FieldDesc) (ann : Schema),
      (∀ f ∈ fields, f.name ≠ none) →
      (fields.filterMap FieldDesc.name).Nodup →
      (∀ nm, (∃ f ∈ fields, f.name = some nm) → dictLookup ann nm = none) →
      ∃ sch, List.foldlM buildStep ann fields = .ok sch ∧
        sch.map Prod.fst = ann.map Prod.fst ++ fields.filterMap FieldDesc.name ∧
        (∀ nm, (∀ f ∈ fields, f.name ≠ some nm) →
          dictLookup sch nm = dictLookup ann nm) ∧
        (∀ f ∈ fields, ∀ nm, f.name = some nm →
          dictLookup sch nm = some (descInfo f)) := by
  intro fields
  induction fields with
  | nil =>
    intro ann _ _ _
    exact ⟨ann, rfl, by simp, fun nm _ => rfl, by simp⟩
  | cons f fs ih =>
    intro ann h hnd hfresh
    obtain ⟨k, hk⟩ : ∃ k, f.name = some k := by
      cases hfn : f.name with
      | none => exact absurd hfn (h f (List.mem_cons_self f fs))
      | some k => exact ⟨k, rfl⟩
    have hfm : (f :: fs).filterMap FieldDesc.name =
        k :: fs.filterMap FieldDesc.name := by
      simp [List.filterMap_cons, hk]
    have hknotin : k ∉ fs.filterMap FieldDesc.name := by
      rw [hfm] at hnd
      exact (List.nodup_cons.mp hnd).1
    have hndfs : (fs.filterMap FieldDesc.name).Nodup := by
      rw [hfm] at hnd
      exact (List.nodup_cons.mp hnd).2
    have hlk_ann : dictLookup ann k = none :=
      hfresh k ⟨f, List.mem_cons_self f fs, hk⟩
    have step : buildStep ann f = .ok (dictInsert ann k (descInfo f)) := by
      simp [buildStep, hk]
    have hfresh' : ∀ nm, (∃ g ∈ fs, g.name = some nm) →
        dictLookup (dictInsert ann k (descInfo f)) nm = none := by
      rintro nm ⟨g, hg, hgnm⟩
      have hne : nm ≠ k := by
        intro hEq
        subst hEq
        exact hknotin (List.mem_filterMap.mpr ⟨g, hg, hgnm⟩)
      rw [dictLookup_dictInsert, if_neg hne]
      exact hfresh nm ⟨g, List.mem_cons_of_mem f hg, hgnm⟩
    obtain ⟨sch, hsch, hfst, hpres, hlook⟩ :=
      ih (dictInsert ann k (descInfo f))
        (fun g hg => h g (List.mem_cons_of_mem f hg)) hndfs hfresh'
    have happ : dictInsert ann k (descInfo f) = ann ++ [(k, descInfo f)] :=
      dictInsert_fresh ann k (descInfo f) hlk_ann
    refine ⟨sch, ?_, ?_, ?_, ?_⟩
    · simpa [List.foldlM, step] using hsch
    · rw [hfst, happ, hfm]
      simp
    · intro nm hnm
      have hnk : nm ≠ k := by
        intro hEq
        subst hEq
        exact (hnm f (List.mem_cons_self f fs)) hk
      rw [hpres nm (fun g hg => hnm g (List.mem_cons_of_mem f hg)),
        dictLookup_dictInsert, if_neg hnk]
    · intro g hg nm hgnm
      rcases List.mem_cons.mp hg with rfl | hgfs
      · have hnmk : nm = k := by
          rw [hk] at hgnm
          exact (Option.some.inj hgnm).symm
        subst hnmk
        have hnofs : ∀ g2 ∈ fs, g2.name ≠ some nm := by
          intro g2 hg2 hg2nm
          exact hknotin (List.mem_filterMap.mpr ⟨g2, hg2, hg2nm⟩)
        rw [hpres nm hnofs, dictLookup_dictInsert, if_pos rfl]
      · exact hlook g hgfs nm hgnm

/-- Claim C6: required/nullable policy. For every field-descriptor list
with (present and) unique names, `build_pydantic_model` succeeds and the
produced model's member list is exactly the descriptor names; each
member's annotation is the unique descriptor's: a `required=true`
descriptor gets the bare resolved type with the no-default marker
(Ellipsis, mandatory), and a `required=false` descriptor gets the
nullable `Optional` type with default null, regardless of declared
type. -/
theorem build_model_required_nullable (fields : List FieldDesc)
    (h1 : ∀ f ∈ fields, f.name ≠ none)
    (h2 : (fields.filterMap FieldDesc.name).Nodup) :
    ∃ sch, build_pydantic_model fields = .ok sch ∧
      sch.map Prod.fst = fields.filterMap FieldDesc.name ∧
      ∀ f ∈ fields, ∀ nm, f.name = some nm →
        dictLookup sch nm = some (descInfo f) ∧
        (f.required = true →
          (descInfo f).default = .ellipsis ∧
          (descInfo f).finalType = .plain (resolveType f.type)) ∧
        (f.required = false →
          (descInfo f).default = .null ∧
          (descInfo f).finalType = .optional (resolveType f.type)) := by
  obtain ⟨sch, ha, hb, _, hd⟩ :=
    build_nodup_aux fields [] h1 h2 (fun nm _ => rfl)
  refine ⟨sch, ha, by simpa using hb, ?_⟩
  intro f hf nm hnm
  refine ⟨hd f hf nm hnm, ?_, ?_⟩ <;> intro hr <;> simp [descInfo, hr]

/-- Witness for C6: a required-int and an optional-bool descriptor with
distinct names. -/
theorem build_model_required_nullable_witness :
    ∃ sch, build_pydantic_model
        [⟨some "a", some "int", true, none, []⟩,
         ⟨some "b", some "bool", false, some "d", ["x"]⟩] = .ok sch ∧
      sch.map Prod.fst =
        ([(⟨some "a", some "int", true, none, []⟩ : FieldDesc),
          ⟨some "b", some "bool", false, some "d", ["x"]⟩].filterMap
            FieldDesc.name) ∧
      ∀ f ∈ ([(⟨some "a", some "int", true, none, []⟩ : FieldDesc),
              ⟨some "b", some "bool", false, some "d", ["x"]⟩]),
        ∀ nm, f.name = some nm →
        dictLookup sch nm = some (descInfo f) ∧
        (f.required = true →
          (descInfo f).default = .ellipsis ∧
          (descInfo f).finalType = .plain (resolveType f.type)) ∧
        (f.required = false →
          (descInfo f).default = .null ∧
          (descInfo f).finalType = .optional (resolveType f.type)) :=
  build_model_required_nullable _ (by decide) (by decide)
